import Mathlib

/-!
Verification development for the Obsidian shell-runner plugin's command
templating and execution subsystem (`terminal-executor.ts`, `main.ts`,
`types/index.ts`).

The TypeScript source is shallowly embedded below.  Conventions:

* JavaScript strings are `String` (a structure around `List Char`); the
  embedding works at the `List Char` level so that all recursion is
  structural and everything evaluates by `rfl`/`decide`.
* `a || b` on strings is `jsOrS` (empty string is falsy), on optional
  numbers it is `jsOrInt` (0 is falsy, absent is falsy).
* TS optional fields become `Option`.
* The `shescape` library is an external dependency; its dialect-bound
  `escape` is modeled as an arbitrary `esc : String → Option String`
  where `none` models the escaper throwing, which activates the in-repo
  fallback (source lines 143-150 of `terminal-executor.ts`).
* Node's `path.join` is modeled as an arbitrary `join` parameter, and
  `process.cwd()` as an explicit `processCwd` argument.
* `String.prototype.replace(regex, str)` with a `g`/`gi` regex built from
  a placeholder (only `{` and `}` are regex-escaped, so the model treats
  the placeholder as a literal pattern, exact whenever the placeholder
  contains no other regex metacharacters — true of all built-in
  placeholders) is embedded as `jsReplace`, including ECMAScript
  `GetSubstitution` expansion of `$$`, `$&`, dollar-backtick and
  dollar-quote in the replacement string.  Case-insensitive matching is
  ASCII (`Char.toLower`), which covers every placeholder the program
  builds.
-/

namespace ShellRunner

/-- JavaScript `a || b` for strings: the empty string is falsy. -/
def jsOrS (a b : String) : String := if a = "" then b else a

/-- A JavaScript value stored in `error.code` by Node's `exec`/`execFile`
rejections: a numeric exit code, or a string error code such as `'ENOENT'`
(launch failure) or `'ERR_CHILD_PROCESS_STDIO_MAXBUFFER'` (output-limit
breach).  The TS annotation `exitCode?: number` notwithstanding, the
runtime value `error.code || -1` flows into the result unchanged. -/
inductive JsCode where
  | num (n : Int)
  | str (s : String)
  deriving Repr, DecidableEq

/-- JavaScript `code || d` for `error.code`: `undefined`/`null`, the number
`0` and the empty string are falsy; any other number or string passes
through. -/
def jsOrCode (code : Option JsCode) (d : Int) : JsCode :=
  match code with
  | none => .num d
  | some (.num n) => if n = 0 then .num d else .num n
  | some (.str s) => if s = "" then .num d else .str s

/-- Case-insensitive character comparison used by a `/.../i` regex on
ASCII input. -/
def charEqCI (a b : Char) : Bool := a.toLower == b.toLower

/-- `pat` matches at the head of the input, character-compared by `eqc`. -/
def prefixBy (eqc : Char → Char → Bool) : List Char → List Char → Bool
  | [], _ => true
  | _ :: _, [] => false
  | p :: ps, c :: cs => eqc p c && prefixBy eqc ps cs

/-- ECMAScript `GetSubstitution` for a replacement *string* with no capture
groups: `$$` yields `$`, `$&` the matched text, dollar-backtick the part of
the subject before the match, dollar-quote the part after it; anything else
is literal. -/
def getSubstitution (matched before after : List Char) : List Char → List Char
  | [] => []
  | c :: rest =>
    if c = '$' then
      match rest with
      | [] => ['$']
      | d :: rest2 =>
        if d = '$' then '$' :: getSubstitution matched before after rest2
        else if d = '&' then matched ++ getSubstitution matched before after rest2
        else if d = Char.ofNat 96 then before ++ getSubstitution matched before after rest2
        else if d = Char.ofNat 39 then after ++ getSubstitution matched before after rest2
        else '$' :: d :: getSubstitution matched before after rest2
    else c :: getSubstitution matched before after rest

/-- Scanning loop of `String.prototype.replace` with a global regex:
leftmost non-overlapping matches; after a match the scanner resumes right
after the matched text (`lastIndex` semantics), so a pass never re-scans
the replacement it just inserted.  `orig`/`pos` track the whole subject
and the absolute position for `GetSubstitution`; `skip` counts matched
characters still to be consumed. -/
def jsRepGo (eqc : Char → Char → Bool) (pat repl orig : List Char) :
    List Char → Nat → Nat → List Char
  | [], _, _ => []
  | _ :: cs, pos, skip + 1 => jsRepGo eqc pat repl orig cs (pos + 1) skip
  | c :: cs, pos, 0 =>
    if prefixBy eqc pat (c :: cs) then
      getSubstitution ((c :: cs).take pat.length) (orig.take pos)
          ((c :: cs).drop pat.length) repl
        ++ jsRepGo eqc pat repl orig cs (pos + 1) (pat.length - 1)
    else
      c :: jsRepGo eqc pat repl orig cs (pos + 1) 0

/-- `s.replace(new RegExp(pat, flags), repl)` for a literal pattern;
`eqc` is `charEqCI` for an `i` flag and `(· == ·)` without it. -/
def jsReplace (eqc : Char → Char → Bool) (pat repl s : String) : String :=
  if pat = "" then s
  else ⟨jsRepGo eqc pat.data repl.data s.data s.data 0 0⟩

/-- JavaScript `String.prototype.toLowerCase` on ASCII input. -/
def strLower (s : String) : String := ⟨s.data.map Char.toLower⟩

/-- Upper-cased copy of a string (used to state case-insensitivity). -/
def strUpper (s : String) : String := ⟨s.data.map Char.toUpper⟩

/-- `n` concatenated copies of a character list. -/
def repeatList (n : Nat) (l : List Char) : List Char :=
  match n with
  | 0 => []
  | n + 1 => l ++ repeatList n l

/-- `n` concatenated copies of a string. -/
def repeatStr (n : Nat) (s : String) : String := ⟨repeatList n s.data⟩

/-- JavaScript `s.split(sep)` for a single-character separator. -/
def splitOnChar (sep : Char) : List Char → List (List Char)
  | [] => [[]]
  | c :: cs =>
    let r := splitOnChar sep cs
    if c = sep then [] :: r
    else
      match r with
      | h :: t => (c :: h) :: t
      | [] => [[c]]

/-- `s.split(sep).pop() || s` (the last split component, or the whole
string when that component is empty). -/
def lastComponentBy (sep : Char) (s : String) : String :=
  jsOrS (((splitOnChar sep s.data).map fun l => (⟨l⟩ : String)).getLastD "") s

/-- JavaScript `s.substring(0, n)` (ASCII input). -/
def jsSubstring0 (s : String) (n : Nat) : String := ⟨s.data.take n⟩

/-! ## Data model (`types/index.ts`) -/

/-- `ParameterContext` (`types/index.ts` lines 19-30).  `prompts` is a
`Record<string, string>`, kept as an insertion-ordered association list. -/
structure ParameterContext where
  activeNote : Option String := none
  activeNotePath : Option String := none
  activeNoteContent : Option String := none
  selectedText : Option String := none
  currentDirectory : Option String := none
  vaultPath : Option String := none
  currentLine : Option String := none
  currentLineNumber : Option Nat := none
  /-- `cursorPosition` as `(line, ch)`. -/
  cursorPosition : Option (Nat × Nat) := none
  prompts : Option (List (String × String)) := none
  deriving Repr, DecidableEq

/-- `CommandScript` (`types/index.ts` lines 6-17).  `prompts` keeps each
`PromptConfig` as `(name, displayName)`. -/
structure CommandScript where
  id : String
  name : String
  description : Option String := none
  command : String
  workingDirectory : Option String := none
  useAbsolutePath : Bool := false
  backgroundExecution : Bool := false
  prompts : Option (List (String × String)) := none
  defaultAction : Option String := none
  enabled : Bool := true
  deriving Repr, DecidableEq

/-- `PluginSettings` (`types/index.ts` lines 42-50), restricted to the
fields the execution subsystem reads. -/
structure PluginSettings where
  defaultWorkingDirectory : String
  showNotifications : Bool
  maxOutputLength : Nat
  shellProgram : String
  useLoginShell : Bool
  deriving Repr, DecidableEq

/-- `CommandExecutionResult` (`types/index.ts` lines 32-40).  `error` and
`exitCode` are optional in TS but set at every construction site;
`exitCode` is typed `number` in TS yet receives `error.code || -1` at
runtime, which can be a string error code, so it is modeled as `JsCode`. -/
structure CommandExecutionResult where
  success : Bool
  output : String
  error : String
  exitCode : JsCode
  command : String
  originalCommand : String
  parameters : ParameterContext
  deriving Repr, DecidableEq

/-- Awaited outcome of `exec`/`execFile`: either resolution with captured
streams, or a thrown error object (fields read by the source: `stdout`,
`stderr`, `message`, `code`).  Timeouts, non-zero exits, output-limit
(`maxBuffer`) kills and launch failures all arrive as `err`; `code` is a
nonzero number for a non-zero exit, a string such as `'ENOENT'` for a
launch failure or `'ERR_CHILD_PROCESS_STDIO_MAXBUFFER'` for an
output-limit breach, and absent (`null`) for a timeout/signal kill. -/
inductive ExecOutcome where
  | ok (stdout stderr : String)
  | err (stdout stderr : Option String) (message : String) (code : Option JsCode)
  deriving Repr, DecidableEq

/-- Behavior of a `spawn` call in `executeInTerminal`: a synchronous
exception, or a spawned child that may later emit an `error` event. -/
inductive SpawnOutcome where
  | threw (message : String)
  | spawned (asyncError : Option String)
  deriving Repr, DecidableEq

/-- Observable side effects of an execution (transient `Notice`s, the
`exec`/`spawn` process boundary, the result modal, a default action).
Notice durations are presentational and dropped. -/
inductive Effect where
  | notice (msg : String)
  | exec (cwd : String) (cmd : String)
  | spawnDetached (cwd : String)
  | resultModal (result : CommandExecutionResult) (scriptName : String)
  | action (name : String) (result : CommandExecutionResult)
  deriving Repr, DecidableEq

/-- An effect that presents a result to the user (result modal or default
action), as opposed to a notification or the process boundary itself. -/
def isPresentation : Effect → Bool
  | .resultModal _ _ => true
  | .action _ _ => true
  | _ => false

/-- `process.env` fields the shell resolver reads. -/
structure Env where
  comspec : Option String := none
  shell : Option String := none
  deriving Repr, DecidableEq

/-- `process.platform`, collapsed to the two families the source
distinguishes. -/
inductive Platform where
  | win32
  | unix
  deriving Repr, DecidableEq

/-- Host editor state visible to `getParameterContext`: cursor `(line, ch)`,
current selection (`""` when none — `getSelection()` returns the empty
string, which is falsy), and `getLine`. -/
structure EditorState where
  cursor : Nat × Nat
  selection : String
  getLine : Nat → String

/-- Active-file state visible to `getParameterContext`; `contentRead = none`
models `vault.read` throwing (caught, yielding `''`). -/
structure ActiveFile where
  basename : String
  path : String
  parentPath : Option String := none
  contentRead : Option String := none

/-- Host application state read by the collector; `vaultPath` is the
already-resolved result of `getVaultPath()`. -/
structure HostState where
  vaultPath : String
  activeFile : Option ActiveFile := none
  editor : Option EditorState := none

/-! ## Embedded program (`terminal-executor.ts`, `main.ts`) -/

/-- The dialect-bound escaper of the external `shescape` library;
`none` models `shescape.escape` throwing. -/
abbrev Esc := String → Option String

/-- Character class of the fallback test `/[^\w\-.\/]/` — `\w` is
`[A-Za-z0-9_]`, so word characters plus `-`, `.`, `/`. -/
def isWordlike (c : Char) : Bool :=
  c.isAlphanum || c = '_' || c = '-' || c = '.' || c = '/'

/-- `escapeShellArgument` (`terminal-executor.ts` lines 137-151): empty
argument becomes a quoted empty-string literal; otherwise delegate to
shescape; if that throws, leave `\w\-./`-only strings unchanged and wrap
everything else in double quotes with inner double quotes
backslash-escaped (`arg.replace(/"/g, '\\"')`, a case-sensitive global
replace). -/
def escapeShellArgument (esc : Esc) (arg : String) : String :=
  if arg = "" then "\"\""
  else
    match esc arg with
    | some s => s
    | none =>
      if arg.data.any (fun c => !(isWordlike c)) then
        "\"" ++ jsReplace (fun a b => a == b) "\"" "\\\"" arg ++ "\""
      else arg

/-- The fixed placeholder table of `substituteParameters`
(`terminal-executor.ts` lines 105-116), in source order; absent context
fields substitute `''`. -/
def builtinSubstitutions (ctx : ParameterContext) : List (String × String) :=
  [("\x7bactivenote\x7d", ctx.activeNote.getD ""),
   ("\x7bactivenotepath\x7d", ctx.activeNotePath.getD ""),
   ("\x7bactivenotecontent\x7d", ctx.activeNoteContent.getD ""),
   ("\x7bselectedtext\x7d", ctx.selectedText.getD ""),
   ("\x7bcurrentdir\x7d", ctx.currentDirectory.getD ""),
   ("\x7bvaultpath\x7d", ctx.vaultPath.getD ""),
   ("\x7bcurrentline\x7d", ctx.currentLine.getD ""),
   ("\x7bcurrentlinenumber\x7d", (ctx.currentLineNumber.map Nat.repr).getD ""),
   ("\x7bcursorline\x7d", (ctx.cursorPosition.map fun p => Nat.repr p.1).getD ""),
   ("\x7bcursorcolumn\x7d", (ctx.cursorPosition.map fun p => Nat.repr p.2).getD "")]

/-- Assignment `substitutions[key] = value` on a JS object: an existing key
keeps its insertion position and gets the new value, a new key is appended. -/
def upsert (key val : String) : List (String × String) → List (String × String)
  | [] => [(key, val)]
  | (k, v) :: rest => if k = key then (k, val) :: rest else (k, v) :: upsert key val rest

/-- The `\x7bprompt:<keyword>\x7d` key registered for a prompt entry
(`terminal-executor.ts` line 121, keyword lower-cased). -/
def promptKey (name : String) : String := "\x7bprompt:" ++ strLower name ++ "\x7d"

/-- The full substitution table: built-ins, then one entry per
`context.prompts` element in insertion order (`terminal-executor.ts`
lines 105-123). -/
def substitutionList (ctx : ParameterContext) : List (String × String) :=
  match ctx.prompts with
  | none => builtinSubstitutions ctx
  | some ps =>
    ps.foldl (fun acc kv => upsert (promptKey kv.1) kv.2 acc) (builtinSubstitutions ctx)

/-- `substituteParameters` (`terminal-executor.ts` lines 101-132): for each
table entry in order, a global case-insensitive replace of the placeholder
by the escaped value, applied to the output of the previous pass. -/
def substituteParameters (esc : Esc) (command : String) (ctx : ParameterContext) : String :=
  (substitutionList ctx).foldl
    (fun acc kv => jsReplace charEqCI kv.1 (escapeShellArgument esc kv.2) acc) command

/-- `getParameterContext` (`terminal-executor.ts` lines 60-96). -/
def getParameterContext (host : HostState) : ParameterContext :=
  let base : ParameterContext := { vaultPath := some host.vaultPath }
  let c1 :=
    match host.activeFile with
    | none => base
    | some f =>
      { base with
        activeNote := some f.basename
        activeNotePath := some f.path
        currentDirectory := some (f.parentPath.getD "")
        activeNoteContent := some (f.contentRead.getD "") }
  match host.editor with
  | none => c1
  | some e =>
    { c1 with
      selectedText := if e.selection ≠ "" then some e.selection else none
      cursorPosition := some e.cursor
      currentLineNumber := some (e.cursor.1 + 1)
      currentLine := some (e.getLine e.cursor.1) }

/-- Working-directory resolution, inlined identically in `executeCommand`
(lines 166-179) and `executeInTerminal` (lines 290-303): base is
`settings.defaultWorkingDirectory || context.vaultPath || process.cwd()`;
a truthy `script.workingDirectory` overrides it, verbatim under
`useAbsolutePath`, else joined onto the base. -/
def resolveWorkingDir (join : String → String → String) (settings : PluginSettings)
    (script : CommandScript) (ctx : ParameterContext) (processCwd : String) : String :=
  let base := jsOrS settings.defaultWorkingDirectory (jsOrS (ctx.vaultPath.getD "") processCwd)
  match script.workingDirectory with
  | none => base
  | some w =>
    if w ≠ "" then (if script.useAbsolutePath then w else join base w) else base

/-- Output preview for the background completion notice
(`executionResult.output` truncated past 100 units). -/
def truncPreview (s : String) : String :=
  if s.length > 100 then jsSubstring0 s 100 ++ "..." else s

/-- `executeCommand` (`terminal-executor.ts` lines 156-278).  The
`exec`/`execFile` boundary is the `outcome` oracle; shell selection and
login-flag shaping (lines 190-211) only feed that boundary and are
abstracted into it.  Returns the `CommandExecutionResult` together with
the emitted effects in order.  The modal/default-action handlers are
modeled as non-throwing effects. -/
def executeCommand (join : String → String → String) (settings : PluginSettings)
    (script : CommandScript) (substitutedCommand : String) (ctx : ParameterContext)
    (processCwd : String) (outcome : ExecOutcome) :
    CommandExecutionResult × List Effect :=
  let workingDir := resolveWorkingDir join settings script ctx processCwd
  let startEffs : List Effect :=
    if settings.showNotifications then
      [Effect.notice (if script.backgroundExecution then
          "Running in background: " ++ script.name
        else "Executing: " ++ script.name)]
    else []
  let execEffs : List Effect := [Effect.exec workingDir substitutedCommand]
  match outcome with
  | .ok stdout stderr =>
    let r : CommandExecutionResult :=
      { success := true
        output := stdout
        error := stderr
        exitCode := .num 0
        command := substitutedCommand
        originalCommand := script.command
        parameters := ctx }
    let doneEffs : List Effect :=
      if settings.showNotifications then
        [Effect.notice (if script.backgroundExecution then
            let p := truncPreview r.output
            "✅ " ++ script.name ++ " completed" ++ (if p ≠ "" then ": " ++ p else "")
          else "Completed: " ++ script.name)]
      else []
    let presEffs : List Effect :=
      if script.backgroundExecution then []
      else
        match script.defaultAction with
        | some a =>
          if a ≠ "" ∧ a ≠ "none" then [Effect.action a r] else [Effect.resultModal r script.name]
        | none => [Effect.resultModal r script.name]
    (r, startEffs ++ execEffs ++ doneEffs ++ presEffs)
  | .err stdout stderr message code =>
    let r : CommandExecutionResult :=
      { success := false
        output := stdout.getD ""
        error := jsOrS (stderr.getD "") (jsOrS message "An unknown error occurred.")
        exitCode := jsOrCode code (-1)
        command := substitutedCommand
        originalCommand := script.command
        parameters := ctx }
    let failEffs : List Effect :=
      if settings.showNotifications then
        [Effect.notice (if script.backgroundExecution then
            let p := if r.error ≠ "" ∧ r.error.length > 100 then jsSubstring0 r.error 100 ++ "..."
              else r.error
            "❌ " ++ script.name ++ " failed" ++ (if p ≠ "" then ": " ++ p else "")
          else "Execution failed: " ++ script.name ++ " - " ++ r.error)]
      else []
    let presEffs : List Effect :=
      if script.backgroundExecution then [] else [Effect.resultModal r script.name]
    (r, startEffs ++ execEffs ++ failEffs ++ presEffs)

/-- `executeUserCommand` (`main.ts` lines 115-146): collect the context,
merge prompt results into it when the script declares prompts, substitute
parameters into the template, then run `executeCommand` with the
substituted command and the same context. -/
def executeUserCommand (esc : Esc) (join : String → String → String)
    (settings : PluginSettings) (script : CommandScript) (host : HostState)
    (promptResults : List (String × String)) (processCwd : String)
    (outcome : ExecOutcome) : CommandExecutionResult × List Effect :=
  let ctx0 := getParameterContext host
  let ctx :=
    match script.prompts with
    | some ps => if ps.length > 0 then { ctx0 with prompts := some promptResults } else ctx0
    | none => ctx0
  let cmd := substituteParameters esc script.command ctx
  executeCommand join settings script cmd ctx processCwd outcome

/-- The Unix shell allow-list (`terminal-executor.ts` line 437). -/
def supportedShells : List String := ["bash", "zsh", "busybox", "csh", "dash"]

/-- `detectDefaultShell` (`terminal-executor.ts` lines 427-445). -/
def detectDefaultShell (p : Platform) (env : Env) : String :=
  match p with
  | .win32 => jsOrS (env.comspec.getD "") "cmd.exe"
  | .unix =>
    let systemShell := env.shell.getD ""
    if systemShell ≠ "" then
      if supportedShells.contains (lastComponentBy '/' systemShell) then systemShell
      else "/bin/bash"
    else "/bin/bash"

/-- `getShellDisplayName` (`terminal-executor.ts` lines 357-365); the
shell name is `shell.split('/').pop() || shell.split('\\').pop() || shell`. -/
def getShellDisplayName (settings : PluginSettings) (p : Platform) (env : Env) : String :=
  if settings.shellProgram = "auto" then
    let shell := detectDefaultShell p env
    jsOrS (((splitOnChar '/' shell.data).map fun l => (⟨l⟩ : String)).getLastD "")
        (lastComponentBy '\\' shell)
      ++ " (auto-detected)"
  else settings.shellProgram

/-- `executeInTerminal` (`terminal-executor.ts` lines 283-352): resolve the
working directory, notify, `spawn` the shell detached with ignored stdio,
`unref` it, attach an `error`-event handler that only notifies; the `catch`
block notifies and then **re-throws** (line 350).  Returns the effects and
`Except.error msg` for a propagated exception. -/
def executeInTerminal (join : String → String → String) (settings : PluginSettings)
    (script : CommandScript) (ctx : ParameterContext) (processCwd : String)
    (p : Platform) (env : Env) (sp : SpawnOutcome) : List Effect × Except String Unit :=
  let workingDir := resolveWorkingDir join settings script ctx processCwd
  let startEffs : List Effect :=
    if settings.showNotifications then
      [Effect.notice ("Executing in " ++ getShellDisplayName settings p env ++ ": " ++ script.name)]
    else []
  match sp with
  | .threw msg =>
    (startEffs ++ [Effect.notice ("Shell execution failed: " ++ msg)], Except.error msg)
  | .spawned asyncError =>
    let errEffs : List Effect :=
      match asyncError with
      | some m => [Effect.notice ("Shell execution failed: " ++ m)]
      | none => []
    (startEffs ++ [Effect.spawnDetached workingDir] ++ errEffs, Except.ok ())

/-! ## Concrete instances used by counterexamples and witnesses -/

/-- A dialect escaper that always throws, activating the in-repo fallback
escaping path (the failure policy documented by the source). -/
def escFail : Esc := fun _ => none

/-- A concrete `path.join` instantiation. -/
def join0 : String → String → String := fun a b => a ++ "/" ++ b

/-- Default-like settings. -/
def settings0 : PluginSettings :=
  { defaultWorkingDirectory := ""
    showNotifications := true
    maxOutputLength := 10000
    shellProgram := "auto"
    useLoginShell := false }

/-- An empty context. -/
def ctx0 : ParameterContext := {}

/-- A host with no active file or editor. -/
def host0 : HostState := { vaultPath := "/vault" }

/-- A focused editor with the cursor on 0-based line 4. -/
def editorW : EditorState := { cursor := (4, 2), selection := "", getLine := fun _ => "line text" }

/-- A host with a focused editor. -/
def hostW : HostState := { vaultPath := "/vault", editor := some editorW }

/-- A background-flagged script. -/
def scriptBG : CommandScript := { id := "bg", name := "BG", command := "true", backgroundExecution := true }

/-- A foreground script. -/
def scriptFG : CommandScript := { id := "fg", name := "FG", command := "pwd" }

/-- Context whose active-note name is itself a later placeholder token. -/
def ctxC1 : ParameterContext := { activeNote := some "\x7bvaultpath\x7d", vaultPath := some "V" }

/-- Context with a prompt value containing the JS replacement pattern. -/
def ctxC3 : ParameterContext := { prompts := some [("name", "$&")] }

/-- The lowercase ASCII alphanumerics; prompt keywords drawn from this set
produce placeholder patterns that contain no regex metacharacter (beyond
the escaped braces) and are fixed by lower-casing. -/
def lowerAlnumChars : List Char := "abcdefghijklmnopqrstuvwxyz0123456789".data

/-- The template consisting solely of the token for prompt keyword `k`. -/
def promptToken (k : String) : String := "\x7bprompt:" ++ k ++ "\x7d"

/-- A context whose prompts mapping is exactly the single entry `k ↦ v`. -/
def promptCtx (k v : String) : ParameterContext := { prompts := some [(k, v)] }

/-- Modelled from the spec's escaping sentence as amended for C7 (the
fallback's allowed set is the regex word class plus `-./`, so it includes
the underscore): empty argument escapes to a quoted empty-string literal,
otherwise delegate to the dialect escaper, and on its failure leave
allowed-set-only strings unchanged, else wrap in double quotes with every
internal double quote preceded by a backslash. -/
def escapeSpecAmended (esc : Esc) (arg : String) : String :=
  if arg = "" then "\"\""
  else
    match esc arg with
    | some s => s
    | none =>
      if arg.data.all (fun c => c.isAlphanum || c = '_' || c = '-' || c = '.' || c = '/') then arg
      else
        "\"" ++ (⟨(arg.data.map fun c => if c = '"' then ['\\', '"'] else [c]).flatten⟩ : String)
          ++ "\""

/-! ## Theorems -/

/-! ### Lemmas about the replace scanner -/

theorem data_ne_nil_of_ne_empty {s : String} (h : s ≠ "") : s.data ≠ [] := by
  intro hd
  apply h
  cases s with
  | mk l => subst hd; rfl

theorem jsRepGo_cons_skip (eqc : Char → Char → Bool) (pat repl orig : List Char)
    (c : Char) (cs : List Char) (pos skip : Nat) :
    jsRepGo eqc pat repl orig (c :: cs) pos (skip + 1)
      = jsRepGo eqc pat repl orig cs (pos + 1) skip := by
  rw [jsRepGo.eq_def]

theorem jsRepGo_cons_zero (eqc : Char → Char → Bool) (pat repl orig : List Char)
    (c : Char) (cs : List Char) (pos : Nat) :
    jsRepGo eqc pat repl orig (c :: cs) pos 0
      = if prefixBy eqc pat (c :: cs) then
          getSubstitution ((c :: cs).take pat.length) (orig.take pos)
              ((c :: cs).drop pat.length) repl
            ++ jsRepGo eqc pat repl orig cs (pos + 1) (pat.length - 1)
        else c :: jsRepGo eqc pat repl orig cs (pos + 1) 0 := by
  rw [jsRepGo.eq_def]

/-- A replacement string without `$` is inserted literally. -/
theorem getSubstitution_nd (m b a : List Char) :
    ∀ l, (∀ c ∈ l, c ≠ '$') → getSubstitution m b a l = l := by
  intro l
  induction l with
  | nil => intro _; rfl
  | cons c rest ih =>
    intro h
    have hc : c ≠ '$' := h c (List.mem_cons_self c rest)
    rw [getSubstitution.eq_def]
    simp only [hc, if_false]
    exact congrArg (c :: ·) (ih fun d hd => h d (List.mem_cons_of_mem _ hd))

theorem prefixBy_append (eqc : Char → Char → Bool) :
    ∀ (p u w : List Char), prefixBy eqc p u = true → prefixBy eqc p (u ++ w) = true := by
  intro p
  induction p with
  | nil => intro u w _; rfl
  | cons x xs ih =>
    intro u w h
    cases u with
    | nil => simp [prefixBy] at h
    | cons c cs =>
      simp only [prefixBy, Bool.and_eq_true] at h ⊢
      exact ⟨h.1, ih cs w h.2⟩

theorem prefixBy_refl_CI : ∀ l : List Char, prefixBy charEqCI l l = true := by
  intro l
  induction l with
  | nil => rfl
  | cons c cs ih => simp [prefixBy, charEqCI, ih]

theorem prefixBy_CI_map (f : Char → Char) :
    ∀ l : List Char, (∀ c ∈ l, charEqCI c (f c) = true) →
      prefixBy charEqCI l (l.map f) = true := by
  intro l
  induction l with
  | nil => intro _; rfl
  | cons c cs ih =>
    intro h
    simp only [List.map_cons, prefixBy, Bool.and_eq_true]
    exact ⟨h c (List.mem_cons_self c cs), ih fun d hd => h d (List.mem_cons_of_mem _ hd)⟩

/-- Consuming the remainder of a match: with `skip = l.length` the scanner
passes over `l` and resumes after it. -/
theorem jsRepGo_skip (eqc : Char → Char → Bool) (pat repl orig : List Char) :
    ∀ (l rest : List Char) (pos : Nat),
      jsRepGo eqc pat repl orig (l ++ rest) pos l.length
        = jsRepGo eqc pat repl orig rest (pos + l.length) 0 := by
  intro l
  induction l with
  | nil => intro rest pos; simp
  | cons x xs ih =>
    intro rest pos
    calc jsRepGo eqc pat repl orig ((x :: xs) ++ rest) pos (x :: xs).length
        = jsRepGo eqc pat repl orig (xs ++ rest) (pos + 1) xs.length :=
          jsRepGo_cons_skip eqc pat repl orig x (xs ++ rest) pos xs.length
      _ = jsRepGo eqc pat repl orig rest (pos + 1 + xs.length) 0 := ih rest (pos + 1)
      _ = jsRepGo eqc pat repl orig rest (pos + (x :: xs).length) 0 := by
          congr 1
          simp only [List.length_cons]
          omega

/-- A chunk at which the pattern can match nowhere (whatever follows it)
is copied verbatim by the scanner. -/
theorem jsRepGo_chunk_nomatch (eqc : Char → Char → Bool) (pat repl orig : List Char) :
    ∀ (chunk : List Char),
      (∀ (t r' : List Char), t <:+ chunk → t ≠ [] → prefixBy eqc pat (t ++ r') = false) →
      ∀ (rest : List Char) (pos : Nat),
        jsRepGo eqc pat repl orig (chunk ++ rest) pos 0
          = chunk ++ jsRepGo eqc pat repl orig rest (pos + chunk.length) 0 := by
  intro chunk
  induction chunk with
  | nil => intro _ rest pos; simp
  | cons c cs ih =>
    intro h rest pos
    have hfalse : prefixBy eqc pat (c :: (cs ++ rest)) = false := by
      have := h (c :: cs) rest (List.suffix_refl _) (by simp)
      simpa using this
    calc jsRepGo eqc pat repl orig ((c :: cs) ++ rest) pos 0
        = c :: jsRepGo eqc pat repl orig (cs ++ rest) (pos + 1) 0 := by
          rw [show (c :: cs) ++ rest = c :: (cs ++ rest) from rfl,
            jsRepGo_cons_zero, if_neg (by simp [hfalse])]
      _ = c :: (cs ++ jsRepGo eqc pat repl orig rest (pos + 1 + cs.length) 0) := by
          rw [ih (fun t r' ht hne => h t r' (ht.trans (List.suffix_cons c cs)) hne) rest (pos + 1)]
      _ = (c :: cs) ++ jsRepGo eqc pat repl orig rest (pos + (c :: cs).length) 0 := by
          have harith : pos + (c :: cs).length = pos + 1 + cs.length := by
            simp only [List.length_cons]
            omega
          rw [harith]
          simp

/-- A chunk fully matched by the pattern is replaced by the (dollar-free)
replacement, and the scanner resumes after the chunk — the inserted
replacement is never re-scanned within the pass. -/
theorem jsRepGo_chunk_match (eqc : Char → Char → Bool) (pat repl orig : List Char)
    (hnd : ∀ c ∈ repl, c ≠ '$') :
    ∀ (chunk : List Char), prefixBy eqc pat chunk = true → chunk.length = pat.length →
      pat ≠ [] →
      ∀ (rest : List Char) (pos : Nat),
        jsRepGo eqc pat repl orig (chunk ++ rest) pos 0
          = repl ++ jsRepGo eqc pat repl orig rest (pos + chunk.length) 0 := by
  intro chunk hpre hlen hpat rest pos
  cases chunk with
  | nil =>
    cases pat with
    | nil => exact absurd rfl hpat
    | cons p ps => simp at hlen
  | cons c cs =>
    have hpre' : prefixBy eqc pat (c :: (cs ++ rest)) = true := by
      have := prefixBy_append eqc pat (c :: cs) rest hpre
      simpa using this
    have hskip : pat.length - 1 = cs.length := by
      simp only [List.length_cons] at hlen
      omega
    calc jsRepGo eqc pat repl orig ((c :: cs) ++ rest) pos 0
        = getSubstitution ((c :: (cs ++ rest)).take pat.length) (orig.take pos)
              ((c :: (cs ++ rest)).drop pat.length) repl
            ++ jsRepGo eqc pat repl orig (cs ++ rest) (pos + 1) (pat.length - 1) := by
          rw [show (c :: cs) ++ rest = c :: (cs ++ rest) from rfl,
            jsRepGo_cons_zero, if_pos hpre']
      _ = repl ++ jsRepGo eqc pat repl orig (cs ++ rest) (pos + 1) cs.length := by
          rw [getSubstitution_nd _ _ _ repl hnd, hskip]
      _ = repl ++ jsRepGo eqc pat repl orig rest (pos + 1 + cs.length) 0 := by
          rw [jsRepGo_skip]
      _ = repl ++ jsRepGo eqc pat repl orig rest (pos + (c :: cs).length) 0 := by
          simp only [List.length_cons]
          congr 2
          omega

/-! ### Lemmas about prompt tokens -/

theorem la_toLower_fix : ∀ c ∈ lowerAlnumChars, Char.toLower c = c := by decide

theorem la_nobrace : ∀ c ∈ lowerAlnumChars, charEqCI '{' c = false := by decide

theorem la_upper_nobrace : ∀ c ∈ lowerAlnumChars, charEqCI '{' (Char.toUpper c) = false := by
  decide

theorem la_ci_upper : ∀ c ∈ lowerAlnumChars, charEqCI c (Char.toUpper c) = true := by decide

/-- No builtin pattern (second character CI-distinct from `d`) can match at
any position of the token `'{' :: d :: u` when no tail character looks like
an opening brace, whatever text follows. -/
theorem token_nomatch (b2 : Char) (bs : List Char) (d : Char) (u : List Char)
    (hb2 : charEqCI b2 d = false)
    (hu : ∀ c ∈ d :: u, charEqCI '{' c = false) :
    ∀ (t r' : List Char), t <:+ ('{' :: d :: u) → t ≠ [] →
      prefixBy charEqCI ('{' :: b2 :: bs) (t ++ r') = false := by
  intro t r' ht hne
  rcases List.suffix_cons_iff.mp ht with h | h
  · subst h
    simp [prefixBy, hb2]
  · cases t with
    | nil => exact absurd rfl hne
    | cons c t' =>
      have hc : c ∈ d :: u := h.subset (List.mem_cons_self c t')
      simp [prefixBy, hu c hc]

/-- A pass whose pattern can match nowhere in the template (made of `n`
copies of a token) leaves it unchanged. -/
theorem jsReplace_id_of_nomatch (bp brepl : String) (hbp : bp ≠ "") (T : List Char)
    (hch : ∀ (t r' : List Char), t <:+ T → t ≠ [] →
      prefixBy charEqCI bp.data (t ++ r') = false)
    (n : Nat) :
    jsReplace charEqCI bp brepl ⟨repeatList n T⟩ = ⟨repeatList n T⟩ := by
  unfold jsReplace
  rw [if_neg hbp]
  congr 1
  have key : ∀ (m : Nat) (pos : Nat),
      jsRepGo charEqCI bp.data brepl.data (repeatList n T) (repeatList m T) pos 0
        = repeatList m T := by
    intro m
    induction m with
    | zero => intro pos; rfl
    | succ m ih =>
      intro pos
      show jsRepGo charEqCI bp.data brepl.data (repeatList n T) (T ++ repeatList m T) pos 0
        = T ++ repeatList m T
      rw [jsRepGo_chunk_nomatch charEqCI bp.data brepl.data (repeatList n T) T hch
        (repeatList m T) pos, ih (pos + T.length)]
  exact key n 0

/-- A pass whose pattern CI-matches the token exactly turns `n` copies of
the token into `n` copies of the (dollar-free) replacement — each copy is
replaced exactly once and the inserted replacement is not re-scanned. -/
theorem jsReplace_match_copies (key repl : String) (hkey : key ≠ "") (T : List Char)
    (hpre : prefixBy charEqCI key.data T = true)
    (hlen : T.length = key.data.length)
    (hnd : ∀ c ∈ repl.data, c ≠ '$') (n : Nat) :
    jsReplace charEqCI key repl ⟨repeatList n T⟩ = repeatStr n repl := by
  unfold jsReplace repeatStr
  rw [if_neg hkey]
  congr 1
  have hpat : key.data ≠ [] := data_ne_nil_of_ne_empty hkey
  have keylem : ∀ (m : Nat) (pos : Nat),
      jsRepGo charEqCI key.data repl.data (repeatList n T) (repeatList m T) pos 0
        = repeatList m repl.data := by
    intro m
    induction m with
    | zero => intro pos; rfl
    | succ m ih =>
      intro pos
      show jsRepGo charEqCI key.data repl.data (repeatList n T) (T ++ repeatList m T) pos 0
        = repl.data ++ repeatList m repl.data
      rw [jsRepGo_chunk_match charEqCI key.data repl.data (repeatList n T) hnd T hpre hlen
        hpat (repeatList m T) pos, ih (pos + T.length)]
  exact keylem n 0

theorem braceWrap_data (m : String) :
    ("\x7bprompt:" ++ m ++ "\x7d").data
      = '{' :: 'p' :: ('r' :: 'o' :: 'm' :: 'p' :: 't' :: ':' :: (m.data ++ ['}'])) := by
  rw [String.data_append, String.data_append, List.append_assoc]
  rfl

theorem promptToken_data (k : String) :
    (promptToken k).data
      = '{' :: 'p' :: ('r' :: 'o' :: 'm' :: 'p' :: 't' :: ':' :: (k.data ++ ['}'])) :=
  braceWrap_data k

theorem repeatList_one (l : List Char) : repeatList 1 l = l := by simp [repeatList]

theorem repeatStr_one (s : String) : repeatStr 1 s = s := by
  unfold repeatStr
  rw [repeatList_one]

theorem strLower_fix (k : String) (hk : ∀ c ∈ k.data, c ∈ lowerAlnumChars) :
    strLower k = k := by
  unfold strLower
  have hmap : k.data.map Char.toLower = k.data := by
    calc k.data.map Char.toLower = k.data.map id :=
          List.map_congr_left fun c hc => la_toLower_fix c (hk c hc)
      _ = k.data := List.map_id k.data
  rw [hmap]

theorem ne_promptKey_of_second (b : String) (c2 : Char) (tl : List Char)
    (hb : b.data = '{' :: c2 :: tl) (hc : c2 ≠ 'p') (m : String) :
    b ≠ "\x7bprompt:" ++ m ++ "\x7d" := by
  intro h
  have hd := congrArg String.data h
  rw [hb, braceWrap_data] at hd
  injection hd with h1 h2
  injection h2 with h3 _
  exact hc h3

theorem upsert_append_of_not_mem (key val : String) :
    ∀ (l : List (String × String)), (∀ p ∈ l, p.1 ≠ key) →
      upsert key val l = l ++ [(key, val)] := by
  intro l
  induction l with
  | nil => intro _; rfl
  | cons p rest ih =>
    intro h
    rcases p with ⟨pk, pv⟩
    have hne : pk ≠ key := h (pk, pv) (List.mem_cons_self _ _)
    simp only [upsert, if_neg hne, List.cons_append]
    rw [ih fun q hq => h q (List.mem_cons_of_mem _ hq)]

/-- For a single-entry prompts mapping the substitution table is the
builtin table followed by the prompt's own key. -/
theorem substitutionList_promptCtx (k v : String)
    (hk : ∀ c ∈ k.data, c ∈ lowerAlnumChars) :
    substitutionList (promptCtx k v)
      = builtinSubstitutions (promptCtx k v) ++ [(promptToken k, v)] := by
  have hkey : promptKey k = promptToken k := by
    unfold promptKey promptToken
    rw [strLower_fix k hk]
  have hne : ∀ p ∈ builtinSubstitutions (promptCtx k v), p.1 ≠ promptToken k := by
    intro p hp
    simp only [builtinSubstitutions, promptCtx, List.mem_cons, List.not_mem_nil, or_false] at hp
    show p.1 ≠ "\x7bprompt:" ++ k ++ "\x7d"
    rcases hp with rfl | rfl | rfl | rfl | rfl | rfl | rfl | rfl | rfl | rfl <;>
      exact ne_promptKey_of_second _ _ _ rfl (by decide) k
  simp only [substitutionList, promptCtx, List.foldl_cons, List.foldl_nil]
  rw [hkey]
  exact upsert_append_of_not_mem _ _ _ hne

/-- Case split for a character of a token tail of the shape
`a1..a7 ++ middle ++ [last]`. -/
theorem tail_cases7 (a1 a2 a3 a4 a5 a6 a7 : Char) (l : List Char) (last : Char)
    (P : Char → Prop)
    (h1 : P a1) (h2 : P a2) (h3 : P a3) (h4 : P a4) (h5 : P a5) (h6 : P a6) (h7 : P a7)
    (hl : ∀ c ∈ l, P c) (hlast : P last) :
    ∀ c ∈ (a1 :: a2 :: a3 :: a4 :: a5 :: a6 :: a7 :: (l ++ [last])), P c := by
  intro c hc
  simp only [List.mem_cons, List.mem_append, List.mem_singleton, List.not_mem_nil,
    or_false] at hc
  rcases hc with rfl | rfl | rfl | rfl | rfl | rfl | rfl | h | rfl
  · exact h1
  · exact h2
  · exact h3
  · exact h4
  · exact h5
  · exact h6
  · exact h7
  · exact hl _ h
  · exact hlast

/-- Shared core of C1/C3: with a single-entry prompts mapping over a
lowercase-alphanumeric keyword, every builtin pass leaves `n` copies of
the token unchanged and the prompt pass then replaces each copy exactly
once by the escaped value (assumed dollar-free). -/
theorem substPrompt_generic (esc : Esc) (k v : String)
    (hk : ∀ c ∈ k.data, c ∈ lowerAlnumChars)
    (d : Char) (u : List Char)
    (hda : charEqCI 'a' d = false) (hss : charEqCI 's' d = false)
    (hcc : charEqCI 'c' d = false) (hvv : charEqCI 'v' d = false)
    (hu : ∀ c ∈ d :: u, charEqCI '{' c = false)
    (hpre : prefixBy charEqCI (promptToken k).data ('{' :: d :: u) = true)
    (hlen : ('{' :: d :: u).length = (promptToken k).data.length)
    (hnd : ∀ c ∈ (escapeShellArgument esc v).data, c ≠ '$')
    (n : Nat) :
    substituteParameters esc ⟨repeatList n ('{' :: d :: u)⟩ (promptCtx k v)
      = repeatStr n (escapeShellArgument esc v) := by
  have htok : promptToken k ≠ "" := by
    intro h
    have h2 := congrArg String.data h
    rw [promptToken_data] at h2
    simp at h2
  unfold substituteParameters
  rw [substitutionList_promptCtx k v hk, List.foldl_append]
  rw [show builtinSubstitutions (promptCtx k v)
      = [("\x7bactivenote\x7d", ""), ("\x7bactivenotepath\x7d", ""),
         ("\x7bactivenotecontent\x7d", ""), ("\x7bselectedtext\x7d", ""),
         ("\x7bcurrentdir\x7d", ""), ("\x7bvaultpath\x7d", ""),
         ("\x7bcurrentline\x7d", ""), ("\x7bcurrentlinenumber\x7d", ""),
         ("\x7bcursorline\x7d", ""), ("\x7bcursorcolumn\x7d", "")] from rfl]
  simp only [List.foldl_cons, List.foldl_nil]
  rw [show escapeShellArgument esc "" = "\"\"" from rfl]
  rw [jsReplace_id_of_nomatch "\x7bactivenote\x7d" "\"\"" (by decide) _
        (token_nomatch 'a' _ d u hda hu) n,
      jsReplace_id_of_nomatch "\x7bactivenotepath\x7d" "\"\"" (by decide) _
        (token_nomatch 'a' _ d u hda hu) n,
      jsReplace_id_of_nomatch "\x7bactivenotecontent\x7d" "\"\"" (by decide) _
        (token_nomatch 'a' _ d u hda hu) n,
      jsReplace_id_of_nomatch "\x7bselectedtext\x7d" "\"\"" (by decide) _
        (token_nomatch 's' _ d u hss hu) n,
      jsReplace_id_of_nomatch "\x7bcurrentdir\x7d" "\"\"" (by decide) _
        (token_nomatch 'c' _ d u hcc hu) n,
      jsReplace_id_of_nomatch "\x7bvaultpath\x7d" "\"\"" (by decide) _
        (token_nomatch 'v' _ d u hvv hu) n,
      jsReplace_id_of_nomatch "\x7bcurrentline\x7d" "\"\"" (by decide) _
        (token_nomatch 'c' _ d u hcc hu) n,
      jsReplace_id_of_nomatch "\x7bcurrentlinenumber\x7d" "\"\"" (by decide) _
        (token_nomatch 'c' _ d u hcc hu) n,
      jsReplace_id_of_nomatch "\x7bcursorline\x7d" "\"\"" (by decide) _
        (token_nomatch 'c' _ d u hcc hu) n,
      jsReplace_id_of_nomatch "\x7bcursorcolumn\x7d" "\"\"" (by decide) _
        (token_nomatch 'c' _ d u hcc hu) n]
  exact jsReplace_match_copies (promptToken k) (escapeShellArgument esc v) htok
    ('{' :: d :: u) hpre hlen hnd n

/-- Claim C1 (amended): each placeholder's pass is single-pass — over a
template of `n` adjacent copies of a prompt token (single-entry prompts
mapping, keyword over `[a-z0-9]`), every copy is replaced exactly once by
the escaped value (dollar-free), which is *not* re-scanned by its own pass
even if it contains the token itself; the result is deterministic.  Text
inserted by an earlier pass is, however, re-scanned by later passes (see
the counterexample). -/
theorem substituteParameters_per_pass_single_scan (esc : Esc) (k v : String) (n : Nat)
    (hk : ∀ c ∈ k.data, c ∈ lowerAlnumChars)
    (hnd : ∀ c ∈ (escapeShellArgument esc v).data, c ≠ '$') :
    substituteParameters esc (repeatStr n (promptToken k)) (promptCtx k v)
      = repeatStr n (escapeShellArgument esc v) := by
  have hT := promptToken_data k
  have hu := tail_cases7 'p' 'r' 'o' 'm' 'p' 't' ':' k.data '}'
    (fun c => charEqCI '{' c = false)
    (by decide) (by decide) (by decide) (by decide) (by decide) (by decide) (by decide)
    (fun c hc => la_nobrace c (hk c hc)) (by decide)
  have hpre : prefixBy charEqCI (promptToken k).data
      ('{' :: 'p' :: ('r' :: 'o' :: 'm' :: 'p' :: 't' :: ':' :: (k.data ++ ['}']))) = true := by
    rw [hT]
    exact prefixBy_refl_CI _
  have hlen :
      ('{' :: 'p' :: ('r' :: 'o' :: 'm' :: 'p' :: 't' :: ':' :: (k.data ++ ['}']))).length
        = (promptToken k).data.length := by
    rw [hT]
  have htmpl : repeatStr n (promptToken k)
      = (⟨repeatList n
          ('{' :: 'p' :: ('r' :: 'o' :: 'm' :: 'p' :: 't' :: ':' :: (k.data ++ ['}'])))⟩ :
          String) := by
    unfold repeatStr
    rw [hT]
  rw [htmpl]
  exact substPrompt_generic esc k v hk 'p' _ (by decide) (by decide) (by decide) (by decide)
    hu hpre hlen hnd n

/-- Witness for C1 (amended): two copies of the token, with a value whose
escaped form contains the (upper-cased) token itself. -/
theorem substituteParameters_per_pass_single_scan_witness :
    substituteParameters escFail (repeatStr 2 (promptToken "k"))
        (promptCtx "k" "\x7bPROMPT:K\x7d")
      = repeatStr 2 (escapeShellArgument escFail "\x7bPROMPT:K\x7d") :=
  substituteParameters_per_pass_single_scan escFail "k" "\x7bPROMPT:K\x7d" 2
    (by decide) (by decide)

/-- Claim C3 (amended): for a single-entry prompts mapping `k ↦ v` with
keyword over `[a-z0-9]`, substituting the template consisting solely of
`\x7bprompt:k\x7d` yields exactly the escaped value whenever that escaped value
contains no `$`, and matching is case-insensitive: the upper-cased template
substitutes to the same result. -/
theorem substituteParameters_prompt_case_insensitive (esc : Esc) (k v : String)
    (hk : ∀ c ∈ k.data, c ∈ lowerAlnumChars)
    (hnd : ∀ c ∈ (escapeShellArgument esc v).data, c ≠ '$') :
    substituteParameters esc (promptToken k) (promptCtx k v) = escapeShellArgument esc v
    ∧ substituteParameters esc (strUpper (promptToken k)) (promptCtx k v)
        = escapeShellArgument esc v := by
  have hT := promptToken_data k
  have hu := tail_cases7 'p' 'r' 'o' 'm' 'p' 't' ':' k.data '}'
    (fun c => charEqCI '{' c = false)
    (by decide) (by decide) (by decide) (by decide) (by decide) (by decide) (by decide)
    (fun c hc => la_nobrace c (hk c hc)) (by decide)
  have hpre : prefixBy charEqCI (promptToken k).data
      ('{' :: 'p' :: ('r' :: 'o' :: 'm' :: 'p' :: 't' :: ':' :: (k.data ++ ['}']))) = true := by
    rw [hT]
    exact prefixBy_refl_CI _
  have hlen :
      ('{' :: 'p' :: ('r' :: 'o' :: 'm' :: 'p' :: 't' :: ':' :: (k.data ++ ['}']))).length
        = (promptToken k).data.length := by
    rw [hT]
  constructor
  · have h := substPrompt_generic esc k v hk 'p' _ (by decide) (by decide) (by decide)
      (by decide) hu hpre hlen hnd 1
    rw [repeatStr_one, repeatList_one, ← hT] at h
    exact h
  · have hmap :
        ('{' :: 'p' :: ('r' :: 'o' :: 'm' :: 'p' :: 't' :: ':' :: (k.data ++ ['}']))).map
            Char.toUpper
          = '{' :: 'P' :: ('R' :: 'O' :: 'M' :: 'P' :: 'T' :: ':' ::
              ((k.data.map Char.toUpper) ++ ['}'])) := by
      simp only [List.map_cons, List.map_append, List.map_nil]
      rfl
    have hu2 := tail_cases7 'P' 'R' 'O' 'M' 'P' 'T' ':' (k.data.map Char.toUpper) '}'
      (fun c => charEqCI '{' c = false)
      (by decide) (by decide) (by decide) (by decide) (by decide) (by decide) (by decide)
      (fun c hc => by
        obtain ⟨c0, h0, rfl⟩ := List.mem_map.mp hc
        exact la_upper_nobrace c0 (hk c0 h0))
      (by decide)
    have hci : ∀ c ∈ ('{' :: 'p' :: ('r' :: 'o' :: 'm' :: 'p' :: 't' :: ':' ::
        (k.data ++ ['}']))), charEqCI c (Char.toUpper c) = true := by
      intro c hc
      rcases List.mem_cons.mp hc with rfl | hc'
      · decide
      · exact tail_cases7 'p' 'r' 'o' 'm' 'p' 't' ':' k.data '}'
          (fun c => charEqCI c (Char.toUpper c) = true)
          (by decide) (by decide) (by decide) (by decide) (by decide) (by decide) (by decide)
          (fun c hc => la_ci_upper c (hk c hc)) (by decide) c hc'
    have hpre2 : prefixBy charEqCI (promptToken k).data
        ('{' :: 'P' :: ('R' :: 'O' :: 'M' :: 'P' :: 'T' :: ':' ::
          ((k.data.map Char.toUpper) ++ ['}']))) = true := by
      rw [hT, ← hmap]
      exact prefixBy_CI_map Char.toUpper _ hci
    have hlen2 :
        ('{' :: 'P' :: ('R' :: 'O' :: 'M' :: 'P' :: 'T' :: ':' ::
          ((k.data.map Char.toUpper) ++ ['}']))).length
          = (promptToken k).data.length := by
      rw [← hmap, List.length_map, hT]
    have htmpl : strUpper (promptToken k)
        = (⟨repeatList 1 ('{' :: 'P' :: ('R' :: 'O' :: 'M' :: 'P' :: 'T' :: ':' ::
            ((k.data.map Char.toUpper) ++ ['}'])))⟩ : String) := by
      unfold strUpper
      rw [hT, hmap, repeatList_one]
    rw [htmpl]
    have h := substPrompt_generic esc k v hk 'P' _ (by decide) (by decide) (by decide)
      (by decide) hu2 hpre2 hlen2 hnd 1
    rw [repeatStr_one] at h
    exact h

/-- Witness for C3 (amended) at a concrete keyword and value. -/
theorem substituteParameters_prompt_case_insensitive_witness :
    substituteParameters escFail (promptToken "key") (promptCtx "key" "a b")
      = escapeShellArgument escFail "a b"
    ∧ substituteParameters escFail (strUpper (promptToken "key")) (promptCtx "key" "a b")
      = escapeShellArgument escFail "a b" :=
  substituteParameters_prompt_case_insensitive escFail "key" "a b" (by decide) (by decide)

theorem jsReplace_quote (arg : String) :
    jsReplace (fun a b => a == b) "\"" "\\\"" arg
      = ⟨(arg.data.map fun c => if c = '"' then ['\\', '"'] else [c]).flatten⟩ := by
  unfold jsReplace
  rw [if_neg (by decide)]
  congr 1
  have key : ∀ (l orig : List Char) (pos : Nat),
      jsRepGo (fun a b => a == b) ['"'] ['\\', '"'] orig l pos 0
        = (l.map fun c => if c = '"' then ['\\', '"'] else [c]).flatten := by
    intro l
    induction l with
    | nil => intro orig pos; rfl
    | cons c cs ih =>
      intro orig pos
      by_cases hc : c = '"'
      · subst hc
        rw [jsRepGo_cons_zero, if_pos (by simp [prefixBy]),
          getSubstitution_nd _ _ _ _ (by decide)]
        show ['\\', '"'] ++ jsRepGo (fun a b => a == b) ['"'] ['\\', '"'] orig cs (pos + 1) 0 = _
        rw [ih orig (pos + 1)]
        simp
      · rw [jsRepGo_cons_zero, if_neg (by simp [prefixBy, beq_iff_eq]; exact fun h => hc h.symm)]
        rw [ih orig (pos + 1)]
        simp [hc]
  exact key arg.data arg.data 0

/-- Claim C7 (amended): the escaping function maps the empty string to the
quoted empty-string literal, delegates nonempty strings to the dialect
escaper, and on escaper failure leaves strings over word characters
(including underscore) plus `-`, `.`, `/` unchanged and wraps every other
string in double quotes with internal double quotes backslash-escaped —
i.e. it coincides with the spec-modelled `escapeSpecAmended`. -/
theorem escapeShellArgument_eq_spec (esc : Esc) (arg : String) :
    escapeShellArgument esc arg = escapeSpecAmended esc arg := by
  unfold escapeShellArgument escapeSpecAmended
  by_cases he : arg = ""
  · simp [he]
  · rw [if_neg he, if_neg he]
    cases esc arg with
    | some s => rfl
    | none =>
      show (if arg.data.any (fun c => !(isWordlike c)) then _ else arg) = _
      rw [show (arg.data.any fun c => !(isWordlike c)) = !arg.data.all isWordlike from by
        rw [List.all_eq_not_any_not]
        simp]
      cases hall : arg.data.all isWordlike with
      | true =>
        simp only [Bool.not_true, Bool.false_eq_true, if_false]
        rw [show arg.data.all
            (fun c => c.isAlphanum || c = '_' || c = '-' || c = '.' || c = '/') =
            arg.data.all isWordlike from rfl, hall, if_pos rfl]
      | false =>
        simp only [Bool.not_false, if_pos]
        rw [show arg.data.all
            (fun c => c.isAlphanum || c = '_' || c = '-' || c = '.' || c = '/') =
            arg.data.all isWordlike from rfl, hall]
        simp only [Bool.false_eq_true, if_false]
        rw [jsReplace_quote]

/-- Claim C2: for every execution reached through the program's call path
(`executeUserCommand`), the recorded `command` of the result equals
substitution re-applied to the recorded `originalCommand` with the recorded
`parameters`, for the same dialect. -/
theorem executeUserCommand_command_roundtrip (esc : Esc) (join : String → String → String)
    (settings : PluginSettings) (script : CommandScript) (host : HostState)
    (promptResults : List (String × String)) (processCwd : String) (outcome : ExecOutcome) :
    (executeUserCommand esc join settings script host promptResults processCwd outcome).1.command
      = substituteParameters esc
          (executeUserCommand esc join settings script host promptResults processCwd outcome).1.originalCommand
          (executeUserCommand esc join settings script host promptResults processCwd outcome).1.parameters := by
  cases outcome <;>
    rcases script.prompts with _ | ps <;>
      simp [executeUserCommand, executeCommand]

/-- Claim C5 counterexample: when the process never starts, Node rejects
with the truthy string code `'ENOENT'`, so `error.code || -1` records the
string code — not `-1` — in `exitCode`. -/
theorem executeCommand_enoent_cex :
    (executeCommand join0 settings0 scriptFG "nonexistent" ctx0 "/cwd"
        (.err none none "spawn nonexistent ENOENT" (some (.str "ENOENT")))).1.exitCode
      = .str "ENOENT"
    ∧ (JsCode.str "ENOENT") ≠ .num (-1) := by
  exact ⟨rfl, by decide⟩

/-- Claim C5 (amended): `executeCommand` never throws — every failure
outcome is captured in the returned result with `success = false`, `error`
the nonempty captured stderr else the failure message, `output` the
captured stdout, and `exitCode = error.code || -1`: the reported nonzero
numeric exit code when the error carries one, the truthy string error code
when it carries that (`'ENOENT'` when the process never started,
`'ERR_CHILD_PROCESS_STDIO_MAXBUFFER'` on an output-limit breach), and `-1`
only when no code was reported (e.g. a timeout/signal kill). -/
theorem executeCommand_failure_captured (join : String → String → String)
    (settings : PluginSettings) (script : CommandScript) (cmd : String)
    (ctx : ParameterContext) (processCwd : String)
    (so se : Option String) (msg : String) (code : Option JsCode) :
    (executeCommand join settings script cmd ctx processCwd (.err so se msg code)).1.success = false
    ∧ (∀ n : Int, code = some (.num n) → n ≠ 0 →
        (executeCommand join settings script cmd ctx processCwd
          (.err so se msg code)).1.exitCode = .num n)
    ∧ (∀ s : String, code = some (.str s) → s ≠ "" →
        (executeCommand join settings script cmd ctx processCwd
          (.err so se msg code)).1.exitCode = .str s)
    ∧ (code = none →
        (executeCommand join settings script cmd ctx processCwd
          (.err so se msg code)).1.exitCode = .num (-1))
    ∧ (∀ s, se = some s → s ≠ "" →
        (executeCommand join settings script cmd ctx processCwd (.err so se msg code)).1.error = s)
    ∧ (se.getD "" = "" → msg ≠ "" →
        (executeCommand join settings script cmd ctx processCwd (.err so se msg code)).1.error = msg)
    ∧ (executeCommand join settings script cmd ctx processCwd (.err so se msg code)).1.output = so.getD ""
    ∧ (executeCommand join settings script cmd ctx processCwd (.err so se msg code)).1.command = cmd
    ∧ (executeCommand join settings script cmd ctx processCwd
        (.err so se msg code)).1.originalCommand = script.command := by
  refine ⟨rfl, ?_, ?_, ?_, ?_, ?_, rfl, rfl, rfl⟩
  · intro n hn hne
    subst hn
    simp [executeCommand, jsOrCode, hne]
  · intro s hs hne
    subst hs
    simp [executeCommand, jsOrCode, hne]
  · intro hn
    subst hn
    simp [executeCommand, jsOrCode]
  · intro s hs hne
    subst hs
    simp [executeCommand, jsOrS, hne]
  · intro hse hmsg
    simp [executeCommand, jsOrS, hse, hmsg]

/-- Witness for C5 (amended), exercising the numeric-code, string-code and
absent-code arms and the stderr arm at concrete failed outcomes. -/
theorem executeCommand_failure_captured_witness :
    (executeCommand join0 settings0 scriptFG "cmd" ctx0 "/cwd"
        (.err (some "o") (some "bad") "m" (some (.num 2)))).1.exitCode = .num 2
    ∧ (executeCommand join0 settings0 scriptFG "cmd" ctx0 "/cwd"
        (.err none none "spawn cmd ENOENT" (some (.str "ENOENT")))).1.exitCode = .str "ENOENT"
    ∧ (executeCommand join0 settings0 scriptFG "cmd" ctx0 "/cwd"
        (.err (some "partial") none "timed out" none)).1.exitCode = .num (-1)
    ∧ (executeCommand join0 settings0 scriptFG "cmd" ctx0 "/cwd"
        (.err (some "o") (some "bad") "m" (some (.num 2)))).1.error = "bad" := by
  obtain ⟨-, h2, -, -, h5, -, -, -, -⟩ :=
    executeCommand_failure_captured join0 settings0 scriptFG "cmd" ctx0 "/cwd"
      (some "o") (some "bad") "m" (some (.num 2))
  obtain ⟨-, -, h3, -, -, -, -, -, -⟩ :=
    executeCommand_failure_captured join0 settings0 scriptFG "cmd" ctx0 "/cwd"
      none none "spawn cmd ENOENT" (some (.str "ENOENT"))
  obtain ⟨-, -, -, h4, -, -, -, -, -⟩ :=
    executeCommand_failure_captured join0 settings0 scriptFG "cmd" ctx0 "/cwd"
      (some "partial") none "timed out" none
  exact ⟨h2 2 rfl (by decide), h3 "ENOENT" rfl (by decide), h4 rfl,
    h5 "bad" rfl (by decide)⟩

/-- Claim C8: the effective working directory is the script's
`workingDirectory` verbatim under `useAbsolutePath`, `join base wd`
otherwise when set and nonempty, and otherwise the base, where the base is
the configured default working directory if nonempty, else the vault path
if nonempty, else the process working directory. -/
theorem resolveWorkingDir_spec (join : String → String → String)
    (settings : PluginSettings) (script : CommandScript) (ctx : ParameterContext)
    (processCwd : String) :
    ((script.workingDirectory = none ∨ script.workingDirectory = some "") →
      resolveWorkingDir join settings script ctx processCwd =
        (if settings.defaultWorkingDirectory ≠ "" then settings.defaultWorkingDirectory
         else if ctx.vaultPath.getD "" ≠ "" then ctx.vaultPath.getD "" else processCwd))
    ∧ (∀ w, script.workingDirectory = some w → w ≠ "" → script.useAbsolutePath = true →
        resolveWorkingDir join settings script ctx processCwd = w)
    ∧ (∀ w, script.workingDirectory = some w → w ≠ "" → script.useAbsolutePath = false →
        resolveWorkingDir join settings script ctx processCwd =
          join (if settings.defaultWorkingDirectory ≠ "" then settings.defaultWorkingDirectory
                else if ctx.vaultPath.getD "" ≠ "" then ctx.vaultPath.getD "" else processCwd) w) := by
  refine ⟨?_, ?_, ?_⟩
  · rintro (h | h) <;> simp only [resolveWorkingDir, h, jsOrS] <;> split_ifs <;> simp_all
  · intro w hw hne habs
    simp [resolveWorkingDir, hw, hne, habs]
  · intro w hw hne habs
    simp only [resolveWorkingDir, hw, hne, habs, jsOrS]
    split_ifs <;> simp_all

/-- Witness for C8 at concrete inputs. -/
theorem resolveWorkingDir_spec_witness :
    resolveWorkingDir join0 settings0
        { scriptFG with workingDirectory := some "sub" } ctx0 "/cwd" = join0 "/cwd" "sub"
    ∧ resolveWorkingDir join0 settings0
        { scriptFG with workingDirectory := some "sub", useAbsolutePath := true } ctx0 "/cwd" = "sub" := by
  obtain ⟨-, -, h3⟩ := resolveWorkingDir_spec join0 settings0
    { scriptFG with workingDirectory := some "sub" } ctx0 "/cwd"
  obtain ⟨-, h2, -⟩ := resolveWorkingDir_spec join0 settings0
    { scriptFG with workingDirectory := some "sub", useAbsolutePath := true } ctx0 "/cwd"
  exact ⟨by simpa using h3 "sub" rfl (by decide) rfl, h2 "sub" rfl (by decide) rfl⟩

/-- Claim C9: `detectDefaultShell` returns `COMSPEC` (falling back to
`cmd.exe` when unset or empty) on Windows; on Unix it returns `SHELL`
exactly when that is set, nonempty, and its basename
(`split('/').pop() || self`) is in the allow-list, else `/bin/bash`. -/
theorem detectDefaultShell_spec (env : Env) :
    (∀ c, env.comspec = some c → c ≠ "" → detectDefaultShell .win32 env = c)
    ∧ ((env.comspec = none ∨ env.comspec = some "") → detectDefaultShell .win32 env = "cmd.exe")
    ∧ (∀ s, env.shell = some s → s ≠ "" →
        lastComponentBy '/' s ∈ supportedShells →
        detectDefaultShell .unix env = s)
    ∧ (∀ s, env.shell = some s → s ≠ "" →
        lastComponentBy '/' s ∉ supportedShells →
        detectDefaultShell .unix env = "/bin/bash")
    ∧ ((env.shell = none ∨ env.shell = some "") → detectDefaultShell .unix env = "/bin/bash") := by
  refine ⟨?_, ?_, ?_, ?_, ?_⟩
  · intro c hc hne
    simp [detectDefaultShell, hc, jsOrS, hne]
  · rintro (h | h) <;> simp [detectDefaultShell, h, jsOrS]
  · intro s hs hne hmem
    simp [detectDefaultShell, hs, hne, hmem]
  · intro s hs hne hmem
    simp [detectDefaultShell, hs, hne, hmem]
  · rintro (h | h) <;> simp [detectDefaultShell, h]

/-- Witness for C9 at concrete environments. -/
theorem detectDefaultShell_spec_witness :
    detectDefaultShell .win32 { comspec := some "C:\\cmd.exe" } = "C:\\cmd.exe"
    ∧ detectDefaultShell .unix { shell := some "/bin/zsh" } = "/bin/zsh"
    ∧ detectDefaultShell .unix { shell := some "/usr/bin/fish" } = "/bin/bash" := by
  obtain ⟨h1, -, -, -, -⟩ := detectDefaultShell_spec { comspec := some "C:\\cmd.exe" }
  obtain ⟨-, -, h3, -, -⟩ := detectDefaultShell_spec { shell := some "/bin/zsh" }
  obtain ⟨-, -, -, h4, -⟩ := detectDefaultShell_spec { shell := some "/usr/bin/fish" }
  exact ⟨h1 _ rfl (by decide), h3 _ rfl (by decide) (by decide), h4 _ rfl (by decide) (by decide)⟩

/-- Claim C10: when an editor is focused, the collector records the cursor
and the 1-based `currentLineNumber = cursor.line + 1`, so the substitution
table maps `\x7bcurrentlinenumber\x7d` to the decimal of `line + 1` and
`\x7bcursorline\x7d` to the decimal of `line` — always exactly one apart. -/
theorem getParameterContext_line_numbers (host : HostState) (e : EditorState)
    (he : host.editor = some e) :
    (getParameterContext host).cursorPosition = some e.cursor
    ∧ (getParameterContext host).currentLineNumber = some (e.cursor.1 + 1)
    ∧ ("\x7bcurrentlinenumber\x7d", Nat.repr (e.cursor.1 + 1))
        ∈ substitutionList (getParameterContext host)
    ∧ ("\x7bcursorline\x7d", Nat.repr e.cursor.1)
        ∈ substitutionList (getParameterContext host) := by
  rcases host with ⟨v, af, ed⟩
  cases he
  rcases af with _ | f <;>
    simp [getParameterContext, substitutionList, builtinSubstitutions]

/-- Witness for C10 with a focused editor on 0-based line 4. -/
theorem getParameterContext_line_numbers_witness :
    (getParameterContext hostW).cursorPosition = some (4, 2)
    ∧ (getParameterContext hostW).currentLineNumber = some 5
    ∧ ("\x7bcurrentlinenumber\x7d", "5") ∈ substitutionList (getParameterContext hostW)
    ∧ ("\x7bcursorline\x7d", "4") ∈ substitutionList (getParameterContext hostW) := by
  simpa using getParameterContext_line_numbers hostW editorW rfl

/-- Claim C4 counterexample: a synchronous `spawn` exception is re-thrown
by `executeInTerminal` (source line 350), so the background operation can
throw to its caller. -/
theorem executeInTerminal_throws_cex :
    (executeInTerminal join0 settings0 scriptBG ctx0 "/cwd" .unix {} (.threw "boom")).2
      = Except.error "boom"
    ∧ (Except.error "boom" : Except String Unit) ≠ Except.ok () := by
  exact ⟨rfl, by simp⟩

/-- Claim C4 (amended): a launch failure delivered via the child's `error`
event is reported only as a transient notification and the operation
completes normally, and a successful detached spawn returns normally; but
a synchronous spawn exception is re-thrown after the notification. -/
theorem executeInTerminal_error_surfacing (join : String → String → String)
    (settings : PluginSettings) (script : CommandScript) (ctx : ParameterContext)
    (processCwd : String) (p : Platform) (env : Env) (m : String) :
    ((executeInTerminal join settings script ctx processCwd p env (.spawned (some m))).2
        = Except.ok ()
      ∧ Effect.notice ("Shell execution failed: " ++ m)
          ∈ (executeInTerminal join settings script ctx processCwd p env (.spawned (some m))).1)
    ∧ ((executeInTerminal join settings script ctx processCwd p env (.threw m)).2
        = Except.error m
      ∧ Effect.notice ("Shell execution failed: " ++ m)
          ∈ (executeInTerminal join settings script ctx processCwd p env (.threw m)).1)
    ∧ (executeInTerminal join settings script ctx processCwd p env (.spawned none)).2
        = Except.ok () := by
  refine ⟨⟨rfl, ?_⟩, ⟨rfl, ?_⟩, rfl⟩ <;> simp [executeInTerminal]

/-- Claim C6 counterexample: a background-flagged script executed through
the program's call path still yields a populated `CommandExecutionResult`
(the flag does not route execution to the detached path). -/
theorem executeUserCommand_background_result_cex :
    (executeUserCommand escFail join0 settings0 scriptBG host0 [] "/cwd" (.ok "hi" "")).1.success
      = true
    ∧ (executeUserCommand escFail join0 settings0 scriptBG host0 [] "/cwd"
        (.ok "hi" "")).1.command = "true" := by
  exact ⟨rfl, rfl⟩

/-- Claim C6 (amended): a background execution still creates and returns a
result (with the script's template and context recorded), and the flag only
suppresses presentation effects — no result modal and no default action are
emitted. -/
theorem executeCommand_background_no_presentation (join : String → String → String)
    (settings : PluginSettings) (script : CommandScript) (cmd : String)
    (ctx : ParameterContext) (processCwd : String) (outcome : ExecOutcome)
    (hbg : script.backgroundExecution = true) :
    (executeCommand join settings script cmd ctx processCwd outcome).1.originalCommand
      = script.command
    ∧ (executeCommand join settings script cmd ctx processCwd outcome).1.parameters = ctx
    ∧ ((executeCommand join settings script cmd ctx processCwd outcome).2.all
        fun e => !(isPresentation e)) = true := by
  cases outcome <;> simp [executeCommand, hbg, isPresentation]

/-- Witness for C6 (amended) at a concrete background execution. -/
theorem executeCommand_background_no_presentation_witness :
    (executeCommand join0 settings0 scriptBG "true" ctx0 "/cwd" (.ok "out" "")).1.originalCommand
      = scriptBG.command
    ∧ (executeCommand join0 settings0 scriptBG "true" ctx0 "/cwd" (.ok "out" "")).1.parameters
      = ctx0
    ∧ ((executeCommand join0 settings0 scriptBG "true" ctx0 "/cwd" (.ok "out" "")).2.all
        fun e => !(isPresentation e)) = true :=
  executeCommand_background_no_presentation join0 settings0 scriptBG "true" ctx0 "/cwd"
    (.ok "out" "") rfl

/-- Claim C1 counterexample: with the documented fallback escaping (primary
escaper throwing), template `\x7bactivenote\x7d` with `activeNote` equal to the
literal text `\x7bvaultpath\x7d` and `vaultPath = "V"` substitutes to `"V"`
(the inserted escaped text is re-scanned by the later `\x7bvaultpath\x7d` pass),
not to the single-pass answer `"\x7bvaultpath\x7d"`. -/
theorem substituteParameters_rescans_cex :
    substituteParameters escFail "\x7bactivenote\x7d" ctxC1 = "\"V\""
    ∧ ("\"V\"" : String) ≠ "\"\x7bvaultpath\x7d\"" := by
  exact ⟨rfl, by decide⟩

/-- Claim C3 counterexample: a prompt value whose escaped form contains the
JS replacement pattern `$&` is expanded by `String.replace`, so the
substituted output is not the escaped value. -/
theorem substituteParameters_dollar_cex :
    substituteParameters escFail "\x7bprompt:name\x7d" ctxC3 = "\"\x7bprompt:name\x7d\""
    ∧ escapeShellArgument escFail "$&" = "\"$&\""
    ∧ ("\"\x7bprompt:name\x7d\"" : String) ≠ "\"$&\"" := by
  exact ⟨rfl, rfl, by decide⟩

/-- Claim C7 counterexample: the fallback's character class is `\w` plus
`-./`, and `\w` contains the underscore, so `"_"` is returned unchanged
rather than quoted as the claim's allowed-set (without underscore) implies. -/
theorem escapeShellArgument_underscore_cex :
    escapeShellArgument escFail "_" = "_" ∧ ("_" : String) ≠ "\"_\"" := by
  exact ⟨rfl, by decide⟩

end ShellRunner
